import Mathlib

/-!
Verification of the MS43EWSPATCHER core (patcher.rs, patches.rs, version.rs)
against its natural-language specification.

Shallow embedding conventions:
* a firmware image buffer (`&[u8]` / `&mut [u8]`) is a `List Nat` of byte
  values; Rust's in-place mutation is modelled by returning the buffer that
  the slice holds after the call, so a fallible mutating function returns a
  pair `(Except PatcherError α) × List Nat`;
* `&data[a..b]` becomes `readW data a (b - a)`;
  `data[a..b].copy_from_slice(src)` becomes `writeW data a src` (the code
  only executes it under the guard `a + src.length ≤ data.length`);
* the `lazy_static` `PATCH_SETS_MAP` is a `HashMap`, whose iteration order
  is unspecified; `detect_version` therefore takes the entry sequence as a
  parameter, constrained in the theorems to be a permutation of the catalog
  (the map's keys are pairwise distinct, so the map holds exactly the five
  catalog entries).
-/

namespace MS43

/-- Error type of patcher.rs (`PatcherError`). -/
inductive PatcherError where
  | ValidationMismatch (offset : Nat) (expected : List Nat) (found : List Nat)
  | FileTooSmall (patch_name : String) (offset : Nat)
deriving DecidableEq, Repr

/-- A single modification (`struct Patch` in patches.rs). -/
structure Patch where
  name : String
  offset : Nat
  original : List Nat
  patched : List Nat
deriving DecidableEq, Repr

/-- A complete set of patches for one firmware version (`struct PatchSet`). -/
structure PatchSet where
  version_string : String
  hardware_variant : Option String
  patches : List Patch
deriving DecidableEq, Repr

/-- `&data[off .. off+n]`: the byte window of length `n` at `off`. -/
def readW (data : List Nat) (off n : Nat) : List Nat :=
  (data.drop off).take n

/-- `data[off .. off+bytes.length].copy_from_slice(bytes)`: overwrite the
window at `off` with `bytes` (the code always guards
`off + bytes.length ≤ data.length` first). -/
def writeW (data : List Nat) (off : Nat) (bytes : List Nat) : List Nat :=
  data.take off ++ bytes ++ data.drop (off + bytes.length)

/-- patcher.rs `validate_pre_patch`: scan the patches in order; fail with
`FileTooSmall` when the buffer is shorter than `offset + original.len()`,
with `ValidationMismatch` when the window differs from `original`. -/
def validate_pre_patch (data : List Nat) : List Patch → Except PatcherError Unit
  | [] => Except.ok ()
  | p :: rest =>
    let end_offset := p.offset + p.original.length
    if data.length < end_offset then
      Except.error (PatcherError.FileTooSmall p.name p.offset)
    else
      let actual_bytes := readW data p.offset p.original.length
      if actual_bytes ≠ p.original then
        Except.error (PatcherError.ValidationMismatch p.offset p.original actual_bytes)
      else validate_pre_patch data rest

/-- Rust `format!("{:#X}", n)`: `0x` followed by uppercase hexadecimal. -/
def hexUpper (n : Nat) : String :=
  "0x" ++ String.mk ((Nat.toDigits 16 n).map Char.toUpper)

/-- The log line pushed by the apply loop. -/
def applyLog (p : Patch) : String :=
  "  Applied " ++ p.name ++ " patch at offset " ++ hexUpper p.offset

/-- The log line pushed by the revert loop. -/
def revertLog (p : Patch) : String :=
  "  Reverted " ++ p.name ++ " patch at offset " ++ hexUpper p.offset

/-- The write loop of `apply_patches` (after validation): defensively
re-checks the length against `offset + patched.len()` before each write.
Returns the result together with the buffer state after the call. -/
def applyLoop (data : List Nat) : List Patch → (Except PatcherError (List String)) × List Nat
  | [] => (Except.ok [], data)
  | p :: rest =>
    let end_offset := p.offset + p.patched.length
    if data.length < end_offset then
      (Except.error (PatcherError.FileTooSmall p.name p.offset), data)
    else
      let data2 := writeW data p.offset p.patched
      match applyLoop data2 rest with
      | (Except.ok logs, d) => (Except.ok (applyLog p :: logs), d)
      | (Except.error e, d) => (Except.error e, d)

/-- patcher.rs `apply_patches`: validate first (pure read-only pass), then
run the write loop. The second component is the buffer after the call. -/
def apply_patches (data : List Nat) (patch_set : PatchSet) :
    (Except PatcherError (List String)) × List Nat :=
  match validate_pre_patch data patch_set.patches with
  | Except.error e => (Except.error e, data)
  | Except.ok _ => applyLoop data patch_set.patches

/-- The validation pass inlined at the top of `revert_patches`: same scan as
`validate_pre_patch` but with `patched` as the reference bytes. -/
def validate_pre_revert (data : List Nat) : List Patch → Except PatcherError Unit
  | [] => Except.ok ()
  | p :: rest =>
    let end_offset := p.offset + p.patched.length
    if data.length < end_offset then
      Except.error (PatcherError.FileTooSmall p.name p.offset)
    else
      let actual_bytes := readW data p.offset p.patched.length
      if actual_bytes ≠ p.patched then
        Except.error (PatcherError.ValidationMismatch p.offset p.patched actual_bytes)
      else validate_pre_revert data rest

/-- The write loop of `revert_patches`: writes `original` back, re-checking
the length against `offset + original.len()` before each write. -/
def revertLoop (data : List Nat) : List Patch → (Except PatcherError (List String)) × List Nat
  | [] => (Except.ok [], data)
  | p :: rest =>
    let end_offset := p.offset + p.original.length
    if data.length < end_offset then
      (Except.error (PatcherError.FileTooSmall p.name p.offset), data)
    else
      let data2 := writeW data p.offset p.original
      match revertLoop data2 rest with
      | (Except.ok logs, d) => (Except.ok (revertLog p :: logs), d)
      | (Except.error e, d) => (Except.error e, d)

/-- patcher.rs `revert_patches`: validate that every window is in the
patched state, then write the original bytes back. -/
def revert_patches (data : List Nat) (patch_set : PatchSet) :
    (Except PatcherError (List String)) × List Nat :=
  match validate_pre_revert data patch_set.patches with
  | Except.error e => (Except.error e, data)
  | Except.ok _ => revertLoop data patch_set.patches

/-- patcher.rs `enum PatchStatus`. -/
inductive PatchStatus where
  | Patched
  | Unpatched
  | Unknown
deriving DecidableEq, Repr

/-- patcher.rs `get_patch_status`: check the patched window first, then the
original window, else `Unknown`. -/
def get_patch_status (data : List Nat) (p : Patch) : PatchStatus :=
  let patched_end := p.offset + p.patched.length
  if patched_end ≤ data.length ∧ readW data p.offset p.patched.length = p.patched then
    PatchStatus.Patched
  else
    let original_end := p.offset + p.original.length
    if original_end ≤ data.length ∧ readW data p.offset p.original.length = p.original then
      PatchStatus.Unpatched
    else PatchStatus.Unknown

/-- patcher.rs `check_patch_status`: the (Jump, Code, DTC) status triple,
each slot `Unknown` when the set holds no patch of that name. -/
def check_patch_status (data : List Nat) (patch_set : PatchSet) :
    PatchStatus × PatchStatus × PatchStatus :=
  ( match patch_set.patches.find? (fun p => p.name = "Jump") with
    | some p => get_patch_status data p
    | none => PatchStatus.Unknown,
    match patch_set.patches.find? (fun p => p.name = "Code") with
    | some p => get_patch_status data p
    | none => PatchStatus.Unknown,
    match patch_set.patches.find? (fun p => p.name = "DTC") with
    | some p => get_patch_status data p
    | none => PatchStatus.Unknown )

/-- Catalog entry for version "ca430037" (patches.rs). -/
def set_ca430037 : PatchSet :=
  { version_string := "ca430037",
    hardware_variant := none,
    patches :=
      [ { name := "Jump", offset := 0x54E8C,
          original := [0xDA, 0x0B, 0x5A, 0x1C], patched := [0xDA, 0x0D, 0x0C, 0x35] },
        { name := "Code", offset := 0x5350C,
          original := [0x00, 0x00, 0xFF, 0xFF, 0xFF, 0xFF, 0xFF, 0xFF],
          patched := [0xDA, 0x0B, 0xE6, 0x39, 0x6E, 0x18, 0xDB, 0x00] },
        { name := "DTC", offset := 0x7099B, original := [0x02], patched := [0x00] } ] }

/-- Catalog entry for version "ca430056", hardware variant 5WK90015. -/
def set_ca430056_15 : PatchSet :=
  { version_string := "ca430056",
    hardware_variant := some "5WK90015",
    patches :=
      [ { name := "Jump", offset := 0x57D76,
          original := [0xDA, 0x0B, 0x40, 0x20], patched := [0xDA, 0x0D, 0xB2, 0x3B] },
        { name := "Code", offset := 0x53BB2,
          original := [0x00, 0x00, 0xFF, 0xFF, 0xFF, 0xFF, 0xFF, 0xFF],
          patched := [0xDA, 0x0B, 0xB8, 0x3F, 0x9E, 0x19, 0xDB, 0x00] },
        { name := "DTC", offset := 0x70A14, original := [0x02], patched := [0x00] } ] }

/-- Catalog entry for version "ca430056", hardware variant 5WK90017
(same modifications as the 5WK90015 entry). -/
def set_ca430056_17 : PatchSet :=
  { version_string := "ca430056",
    hardware_variant := some "5WK90017",
    patches :=
      [ { name := "Jump", offset := 0x57D76,
          original := [0xDA, 0x0B, 0x40, 0x20], patched := [0xDA, 0x0D, 0xB2, 0x3B] },
        { name := "Code", offset := 0x53BB2,
          original := [0x00, 0x00, 0xFF, 0xFF, 0xFF, 0xFF, 0xFF, 0xFF],
          patched := [0xDA, 0x0B, 0xB8, 0x3F, 0x9E, 0x19, 0xDB, 0x00] },
        { name := "DTC", offset := 0x70A14, original := [0x02], patched := [0x00] } ] }

/-- Catalog entry for version "ca430066". -/
def set_ca430066 : PatchSet :=
  { version_string := "ca430066",
    hardware_variant := none,
    patches :=
      [ { name := "Jump", offset := 0x600D8,
          original := [0xDA, 0x0A, 0x64, 0xDD], patched := [0xDA, 0x0D, 0xF8, 0x3B] },
        { name := "Code", offset := 0x53BF8,
          original := [0x00, 0x00, 0xFF, 0xFF, 0xFF, 0xFF, 0xFF, 0xFF],
          patched := [0xDA, 0x0A, 0xDC, 0xFC, 0x0E, 0x1A, 0xDB, 0x00] },
        { name := "DTC", offset := 0x70A77, original := [0x02], patched := [0x00] } ] }

/-- Catalog entry for version "ca430069". -/
def set_ca430069 : PatchSet :=
  { version_string := "ca430069",
    hardware_variant := none,
    patches :=
      [ { name := "Jump", offset := 0x600D8,
          original := [0xDA, 0x0A, 0x6C, 0xDD], patched := [0xDA, 0x0D, 0xF8, 0x3B] },
        { name := "Code", offset := 0x53BF8,
          original := [0x00, 0x00, 0xFF, 0xFF, 0xFF, 0xFF, 0xFF, 0xFF],
          patched := [0xDA, 0x0A, 0xE4, 0xFC, 0x0E, 0x1A, 0xDB, 0x00] },
        { name := "DTC", offset := 0x70A6E, original := [0x02], patched := [0x00] } ] }

/-- patches.rs `get_all_patch_sets`: the hardcoded catalog. -/
def get_all_patch_sets : List PatchSet :=
  [set_ca430037, set_ca430056_15, set_ca430056_17, set_ca430066, set_ca430069]

/-- version.rs `VERSION_STRING_OFFSET`. -/
def VERSION_STRING_OFFSET : Nat := 0x70040

/-- version.rs `VERSION_STRING_LENGTH`. -/
def VERSION_STRING_LENGTH : Nat := 16

/-- version.rs `VersionError`. -/
inductive VersionError where
  | FileTooSmall
  | InvalidUtf8 (offset : Nat)
  | UnsupportedVersion (s : String)
  | UnknownVersion
deriving DecidableEq, Repr

/-- version.rs, step 3 of `detect_version`: take bytes up to the first null,
keep only printable ASCII `[0x20, 0x7e]`, collect into a string. -/
def clean_version_bytes (bs : List Nat) : String :=
  String.mk
    (((bs.takeWhile (fun b => b ≠ 0)).filter (fun b => 0x20 ≤ b ∧ b ≤ 0x7e)).map
      (fun b => Char.ofNat b))

/-- The cleaned identifier `detect_version` computes from a buffer. -/
def cleanedIdent (data : List Nat) : String :=
  clean_version_bytes (readW data VERSION_STRING_OFFSET VERSION_STRING_LENGTH)

/-- Rust `str::starts_with` (string-prefix test), embedded on the
underlying character lists. -/
def strStartsWith (s pre : String) : Bool :=
  pre.data.isPrefixOf s.data

/-- version.rs `detect_version`. `mapOrder` stands for the iteration
sequence of the `lazy_static` `PATCH_SETS_MAP` (a `HashMap`, unspecified
order); each entry's key components equal the stored set's fields, so the
prefix test on the key is the test on the set's `version_string`. -/
def detect_version (mapOrder : List PatchSet) (data : List Nat) :
    Except VersionError PatchSet :=
  if data.length < VERSION_STRING_OFFSET + VERSION_STRING_LENGTH then
    Except.error VersionError.FileTooSmall
  else
    let cleaned := cleanedIdent data
    if ¬ strStartsWith cleaned "ca" then
      Except.error VersionError.UnknownVersion
    else
      match mapOrder.find? (fun ps => strStartsWith cleaned ps.version_string) with
      | some ps => Except.ok ps
      | none => Except.error (VersionError.UnsupportedVersion cleaned)

/-! ### Spec-side notions used to state the claims -/

/-- The window `[off, off + bytes.length)` fits in the buffer and holds
exactly `bytes`. -/
def windowOk (data : List Nat) (off : Nat) (bytes : List Nat) : Prop :=
  off + bytes.length ≤ data.length ∧ readW data off bytes.length = bytes

instance (data : List Nat) (off : Nat) (bytes : List Nat) :
    Decidable (windowOk data off bytes) :=
  inferInstanceAs (Decidable (_ ∧ _))

/-- Every patch of the list writes as many bytes as it replaces. -/
def sameLengths (l : List Patch) : Prop :=
  ∀ p ∈ l, p.original.length = p.patched.length

instance (l : List Patch) : Decidable (sameLengths l) :=
  inferInstanceAs (Decidable (∀ p ∈ l, p.original.length = p.patched.length))

/-- The windows `[offset, offset + (f p).length)` of distinct patches are
pairwise disjoint. -/
def disjointWindows (f : Patch → List Nat) (l : List Patch) : Prop :=
  l.Pairwise (fun p q =>
    p.offset + (f p).length ≤ q.offset ∨ q.offset + (f q).length ≤ p.offset)

instance (f : Patch → List Nat) (l : List Patch) : Decidable (disjointWindows f l) :=
  inferInstanceAs (Decidable (List.Pairwise
    (fun p q => p.offset + (f p).length ≤ q.offset ∨ q.offset + (f q).length ≤ p.offset) l))

/-- Formalisation of the spec's fail-fast validation policy (§4.4): scan the
modifications in set order with `refOf` as the reference bytes and report the
first failure, `none` when every window matches. -/
def specFirstFailure (data : List Nat) (refOf : Patch → List Nat) :
    List Patch → Option PatcherError
  | [] => none
  | p :: rest =>
    if data.length < p.offset + (refOf p).length then
      some (PatcherError.FileTooSmall p.name p.offset)
    else if readW data p.offset (refOf p).length ≠ refOf p then
      some (PatcherError.ValidationMismatch p.offset (refOf p)
        (readW data p.offset (refOf p).length))
    else specFirstFailure data refOf rest

/-- Sequential overwrite of every patch window with `f p` (the pure content
of the apply/revert write loops). -/
def foldWrites (f : Patch → List Nat) (data : List Nat) : List Patch → List Nat
  | [] => data
  | p :: rest => foldWrites f (writeW data p.offset (f p)) rest

/-! ### Panic-aware variants (claim C10)

Rust slice indexing `&data[a..b]` panics when `a > b` or `b > data.len()`,
and `copy_from_slice` panics when the two slices have different lengths.
The functions below repeat the source functions with every slice access
replaced by a checked access in the `Option` monad; `none` stands for a
panic. Proving them equal to `some` of the plain functions proves the
source functions reach no panicking access. -/

/-- `&data[a..b]` with the panic conditions made explicit. -/
def sliceChecked (data : List Nat) (a b : Nat) : Option (List Nat) :=
  if a ≤ b ∧ b ≤ data.length then some (readW data a (b - a)) else none

/-- `data[a..b].copy_from_slice(src)` with the panic conditions made
explicit (range valid, and `src` exactly fills it). -/
def writeChecked (data : List Nat) (a b : Nat) (src : List Nat) : Option (List Nat) :=
  if a ≤ b ∧ b ≤ data.length ∧ src.length = b - a then some (writeW data a src)
  else none

/-- `validate_pre_patch` with checked slice accesses. -/
def validate_pre_patchP (data : List Nat) : List Patch → Option (Except PatcherError Unit)
  | [] => some (Except.ok ())
  | p :: rest =>
    let end_offset := p.offset + p.original.length
    if data.length < end_offset then
      some (Except.error (PatcherError.FileTooSmall p.name p.offset))
    else
      match sliceChecked data p.offset end_offset with
      | none => none
      | some actual_bytes =>
        if actual_bytes ≠ p.original then
          some (Except.error
            (PatcherError.ValidationMismatch p.offset p.original actual_bytes))
        else validate_pre_patchP data rest

/-- The apply write loop with checked writes. -/
def applyLoopP (data : List Nat) : List Patch → Option ((Except PatcherError (List String)) × List Nat)
  | [] => some (Except.ok [], data)
  | p :: rest =>
    let end_offset := p.offset + p.patched.length
    if data.length < end_offset then
      some (Except.error (PatcherError.FileTooSmall p.name p.offset), data)
    else
      match writeChecked data p.offset end_offset p.patched with
      | none => none
      | some data2 =>
        match applyLoopP data2 rest with
        | none => none
        | some (Except.ok logs, d) => some (Except.ok (applyLog p :: logs), d)
        | some (Except.error e, d) => some (Except.error e, d)

/-- `apply_patches` with checked slice accesses. -/
def apply_patchesP (data : List Nat) (patch_set : PatchSet) :
    Option ((Except PatcherError (List String)) × List Nat) :=
  match validate_pre_patchP data patch_set.patches with
  | none => none
  | some (Except.error e) => some (Except.error e, data)
  | some (Except.ok _) => applyLoopP data patch_set.patches

/-- The revert validation pass with checked slice accesses. -/
def validate_pre_revertP (data : List Nat) : List Patch → Option (Except PatcherError Unit)
  | [] => some (Except.ok ())
  | p :: rest =>
    let end_offset := p.offset + p.patched.length
    if data.length < end_offset then
      some (Except.error (PatcherError.FileTooSmall p.name p.offset))
    else
      match sliceChecked data p.offset end_offset with
      | none => none
      | some actual_bytes =>
        if actual_bytes ≠ p.patched then
          some (Except.error
            (PatcherError.ValidationMismatch p.offset p.patched actual_bytes))
        else validate_pre_revertP data rest

/-- The revert write loop with checked writes. -/
def revertLoopP (data : List Nat) : List Patch → Option ((Except PatcherError (List String)) × List Nat)
  | [] => some (Except.ok [], data)
  | p :: rest =>
    let end_offset := p.offset + p.original.length
    if data.length < end_offset then
      some (Except.error (PatcherError.FileTooSmall p.name p.offset), data)
    else
      match writeChecked data p.offset end_offset p.original with
      | none => none
      | some data2 =>
        match revertLoopP data2 rest with
        | none => none
        | some (Except.ok logs, d) => some (Except.ok (revertLog p :: logs), d)
        | some (Except.error e, d) => some (Except.error e, d)

/-- `revert_patches` with checked slice accesses. -/
def revert_patchesP (data : List Nat) (patch_set : PatchSet) :
    Option ((Except PatcherError (List String)) × List Nat) :=
  match validate_pre_revertP data patch_set.patches with
  | none => none
  | some (Except.error e) => some (Except.error e, data)
  | some (Except.ok _) => revertLoopP data patch_set.patches

/-- `get_patch_status` with checked slice accesses. -/
def get_patch_statusP (data : List Nat) (p : Patch) : Option PatchStatus :=
  let step2 : Option PatchStatus :=
    let original_end := p.offset + p.original.length
    if original_end ≤ data.length then
      match sliceChecked data p.offset original_end with
      | none => none
      | some w =>
        if w = p.original then some PatchStatus.Unpatched else some PatchStatus.Unknown
    else some PatchStatus.Unknown
  let patched_end := p.offset + p.patched.length
  if patched_end ≤ data.length then
    match sliceChecked data p.offset patched_end with
    | none => none
    | some w => if w = p.patched then some PatchStatus.Patched else step2
  else step2

/-- `check_patch_status` with checked slice accesses. -/
def check_patch_statusP (data : List Nat) (patch_set : PatchSet) :
    Option (PatchStatus × PatchStatus × PatchStatus) :=
  let slot (n : String) : Option PatchStatus :=
    match patch_set.patches.find? (fun p => p.name = n) with
    | some p => get_patch_statusP data p
    | none => some PatchStatus.Unknown
  match slot "Jump", slot "Code", slot "DTC" with
  | some a, some b, some c => some (a, b, c)
  | _, _, _ => none

/-- `detect_version` with its one slice access checked. -/
def detect_versionP (mapOrder : List PatchSet) (data : List Nat) :
    Option (Except VersionError PatchSet) :=
  if data.length < VERSION_STRING_OFFSET + VERSION_STRING_LENGTH then
    some (Except.error VersionError.FileTooSmall)
  else
    match sliceChecked data VERSION_STRING_OFFSET
        (VERSION_STRING_OFFSET + VERSION_STRING_LENGTH) with
    | none => none
    | some bs =>
      let cleaned := clean_version_bytes bs
      if ¬ strStartsWith cleaned "ca" then
        some (Except.error VersionError.UnknownVersion)
      else
        match mapOrder.find? (fun ps => strStartsWith cleaned ps.version_string) with
        | some ps => some (Except.ok ps)
        | none => some (Except.error (VersionError.UnsupportedVersion cleaned))

/-! ### Concrete inputs used by the witnesses and counterexamples -/

/-- A patch set whose second patch writes more bytes than it replaces:
validation passes on `[0]` yet the write loop fails halfway through. -/
def psGrow : PatchSet :=
  { version_string := "x", hardware_variant := none,
    patches :=
      [ { name := "A", offset := 0, original := [0], patched := [5] },
        { name := "B", offset := 0, original := [], patched := [9, 9] } ] }

/-- Buffer length used by the concrete witness buffers: past every offset of
the "ca430037" set. -/
def bufLen037 : Nat := 0x71000

/-- An all-original "ca430037" image: zeros with each window set to the
patch's `original` bytes. -/
def dataOrig037 : List Nat :=
  foldWrites (fun p => p.original) (List.replicate bufLen037 0) set_ca430037.patches

/-- An all-patched "ca430037" image: zeros with each window set to the
patch's `patched` bytes. -/
def dataPat037 : List Nat :=
  foldWrites (fun p => p.patched) (List.replicate bufLen037 0) set_ca430037.patches

/-- The "Jump" patch of `set_ca430037`. -/
def jump037 : Patch :=
  { name := "Jump", offset := 0x54E8C,
    original := [0xDA, 0x0B, 0x5A, 0x1C], patched := [0xDA, 0x0D, 0x0C, 0x35] }

/-- The "Code" patch of `set_ca430037`. -/
def code037 : Patch :=
  { name := "Code", offset := 0x5350C,
    original := [0x00, 0x00, 0xFF, 0xFF, 0xFF, 0xFF, 0xFF, 0xFF],
    patched := [0xDA, 0x0B, 0xE6, 0x39, 0x6E, 0x18, 0xDB, 0x00] }

/-- The "DTC" patch of `set_ca430037`. -/
def dtc037 : Patch :=
  { name := "DTC", offset := 0x7099B, original := [0x02], patched := [0x00] }

/-- A buffer truncated to one byte less than the end of the "Code" window of
`set_ca430037` (`0x5350C + 8 - 1`); the part of the Code window that still
fits holds the first seven `original` bytes, every other byte is zero (the
Jump and DTC windows lie wholly beyond the end). -/
def dataTruncCode037 : List Nat :=
  writeW (List.replicate 0x53513 0) 0x5350C (code037.original.take 7)

/-- A buffer truncated to one byte less than the end of the "Jump" window of
`set_ca430037` (`0x54E8C + 4 - 1`), whose still-fitting window ("Code") is
in the original state. -/
def dataTruncJump037 : List Nat :=
  writeW (List.replicate 0x54E8F 0) 0x5350C code037.original

/-- The 16 bytes stored at `0x70040` by the version-detection witness:
ASCII "ca430037ZZ" and null padding (trailing garbage after the catalog
identifier, exercising the prefix — not equality — match). -/
def verBytesZZ : List Nat :=
  [0x63, 0x61, 0x34, 0x33, 0x30, 0x30, 0x33, 0x37, 0x5A, 0x5A, 0, 0, 0, 0, 0, 0]

/-- A buffer whose version region holds "ca430037ZZ": zeros up to
`0x70040`, then `verBytesZZ`. -/
def dataVerZZ : List Nat := List.replicate 0x70040 0 ++ verBytesZZ

/-! ## Window lemmas -/

theorem drop_len_append {α : Type} (l₁ l₂ : List α) {k : Nat} (h : k = l₁.length) :
    (l₁ ++ l₂).drop k = l₂ := by
  subst h; exact List.drop_left l₁ l₂

theorem take_len_append {α : Type} (l₁ l₂ : List α) {k : Nat} (h : k = l₁.length) :
    (l₁ ++ l₂).take k = l₁ := by
  subst h; exact List.take_left l₁ l₂

theorem writeW_length (data : List Nat) (off : Nat) (bytes : List Nat)
    (h : off + bytes.length ≤ data.length) :
    (writeW data off bytes).length = data.length := by
  unfold writeW
  rw [List.length_append, List.length_append, List.length_take_of_le (by omega),
    List.length_drop]
  omega

theorem getElem?_readW (data : List Nat) (off n j : Nat) :
    (readW data off n)[j]? =
      if j < n then data[off + j]? else none := by
  unfold readW
  rw [List.getElem?_take, List.getElem?_drop]

theorem readW_pt (data : List Nat) (off n j : Nat) (bs : List Nat)
    (h : readW data off n = bs) (hj : j < n) :
    data[off + j]? = bs[j]? := by
  rw [← h, getElem?_readW, if_pos hj]

theorem readW_length_of_le (data : List Nat) (off n : Nat)
    (h : off + n ≤ data.length) :
    (readW data off n).length = n := by
  unfold readW
  rw [List.length_take, List.length_drop]
  omega

theorem readW_writeW_self (data : List Nat) (off : Nat) (bytes : List Nat)
    (h : off + bytes.length ≤ data.length) :
    readW (writeW data off bytes) off bytes.length = bytes := by
  unfold readW writeW
  rw [List.append_assoc,
    drop_len_append _ _ (List.length_take_of_le (by omega)).symm,
    take_len_append _ _ rfl]

theorem getElem?_writeW (data : List Nat) (off : Nat) (bytes : List Nat)
    (h : off + bytes.length ≤ data.length) (i : Nat) :
    (writeW data off bytes)[i]? =
      if i < off then data[i]?
      else if i < off + bytes.length then bytes[i - off]?
      else data[i]? := by
  have hto : (data.take off).length = off := List.length_take_of_le (by omega)
  unfold writeW
  rw [List.append_assoc]
  rcases Nat.lt_or_ge i off with h1 | h1
  · rw [if_pos h1, List.getElem?_append, if_pos (by omega), List.getElem?_take,
      if_pos h1]
  · rw [if_neg (by omega), List.getElem?_append_right (by omega), hto]
    rcases Nat.lt_or_ge i (off + bytes.length) with h2 | h2
    · rw [if_pos h2, List.getElem?_append, if_pos (by omega)]
    · rw [if_neg (by omega), List.getElem?_append_right (by omega),
        List.getElem?_drop]
      have : off + bytes.length + (i - off - bytes.length) = i := by omega
      rw [this]

theorem readW_writeW_of_disjoint (data : List Nat) (off : Nat) (bytes : List Nat)
    (off2 n : Nat) (h : off + bytes.length ≤ data.length)
    (hd : off2 + n ≤ off ∨ off + bytes.length ≤ off2) :
    readW (writeW data off bytes) off2 n = readW data off2 n := by
  apply List.ext_getElem?
  intro j
  rw [getElem?_readW, getElem?_readW]
  by_cases hj : j < n
  · rw [if_pos hj, if_pos hj, getElem?_writeW data off bytes h]
    rcases Nat.lt_or_ge (off2 + j) off with h1 | h1
    · rw [if_pos h1]
    · rw [if_neg (by omega), if_neg (by omega)]
  · rw [if_neg hj, if_neg hj]

theorem foldWrites_length (f : Patch → List Nat) (l : List Patch) :
    ∀ data : List Nat, (∀ p ∈ l, p.offset + (f p).length ≤ data.length) →
      (foldWrites f data l).length = data.length := by
  induction l with
  | nil => intro data _; rfl
  | cons p rest ih =>
    intro data hb
    have hp := hb p (List.mem_cons_self p rest)
    have hw : (writeW data p.offset (f p)).length = data.length :=
      writeW_length _ _ _ hp
    show (foldWrites f (writeW data p.offset (f p)) rest).length = data.length
    rw [ih (writeW data p.offset (f p))
      (fun q hq => by rw [hw]; exact hb q (List.mem_cons_of_mem _ hq)), hw]

theorem getElem?_foldWrites_outside (f : Patch → List Nat) (l : List Patch) :
    ∀ data : List Nat, (∀ p ∈ l, p.offset + (f p).length ≤ data.length) →
    ∀ i : Nat, (∀ p ∈ l, i < p.offset ∨ p.offset + (f p).length ≤ i) →
      (foldWrites f data l)[i]? = data[i]? := by
  induction l with
  | nil => intro data _ i _; rfl
  | cons p rest ih =>
    intro data hb i hout
    have hp := hb p (List.mem_cons_self p rest)
    have hw : (writeW data p.offset (f p)).length = data.length :=
      writeW_length _ _ _ hp
    show (foldWrites f (writeW data p.offset (f p)) rest)[i]? = _
    rw [ih (writeW data p.offset (f p))
      (fun q hq => by rw [hw]; exact hb q (List.mem_cons_of_mem _ hq)) i
      (fun q hq => hout q (List.mem_cons_of_mem _ hq)),
      getElem?_writeW data p.offset (f p) hp i]
    rcases hout p (List.mem_cons_self p rest) with h1 | h1
    · rw [if_pos h1]
    · rw [if_neg (by omega), if_neg (by omega)]

theorem readW_foldWrites_outside (f : Patch → List Nat) (l : List Patch) :
    ∀ data : List Nat, (∀ p ∈ l, p.offset + (f p).length ≤ data.length) →
    ∀ off n : Nat, (∀ p ∈ l, off + n ≤ p.offset ∨ p.offset + (f p).length ≤ off) →
      readW (foldWrites f data l) off n = readW data off n := by
  induction l with
  | nil => intro data _ off n _; rfl
  | cons p rest ih =>
    intro data hb off n hd
    have hp := hb p (List.mem_cons_self p rest)
    have hw : (writeW data p.offset (f p)).length = data.length :=
      writeW_length _ _ _ hp
    show readW (foldWrites f (writeW data p.offset (f p)) rest) off n = _
    rw [ih (writeW data p.offset (f p))
      (fun q hq => by rw [hw]; exact hb q (List.mem_cons_of_mem _ hq)) off n
      (fun q hq => hd q (List.mem_cons_of_mem _ hq)),
      readW_writeW_of_disjoint data p.offset (f p) off n hp
      (by rcases hd p (List.mem_cons_self p rest) with h1 | h1
          · exact Or.inl h1
          · exact Or.inr h1)]

theorem readW_foldWrites_self (f : Patch → List Nat) (l : List Patch) :
    ∀ data : List Nat, (∀ p ∈ l, p.offset + (f p).length ≤ data.length) →
    disjointWindows f l → ∀ p ∈ l,
      readW (foldWrites f data l) p.offset (f p).length = f p := by
  induction l with
  | nil => intro data _ _ p hp; cases hp
  | cons q rest ih =>
    intro data hb hdj p hp
    have hq := hb q (List.mem_cons_self q rest)
    have hw : (writeW data q.offset (f q)).length = data.length :=
      writeW_length _ _ _ hq
    have hb' : ∀ r ∈ rest, r.offset + (f r).length ≤ (writeW data q.offset (f q)).length :=
      fun r hr => by rw [hw]; exact hb r (List.mem_cons_of_mem _ hr)
    obtain ⟨hhead, htail⟩ := List.pairwise_cons.mp hdj
    rcases List.mem_cons.mp hp with rfl | hp'
    · show readW (foldWrites f (writeW data p.offset (f p)) rest) p.offset (f p).length = f p
      rw [readW_foldWrites_outside f rest (writeW data p.offset (f p)) hb'
        p.offset (f p).length (fun r hr => hhead r hr)]
      exact readW_writeW_self data p.offset (f p) hq
    · show readW (foldWrites f (writeW data q.offset (f q)) rest) p.offset (f p).length = f p
      exact ih (writeW data q.offset (f q)) hb' htail p hp'

/-! ## Validation characterizations -/

theorem validate_ok_iff (data : List Nat) (l : List Patch) :
    validate_pre_patch data l = Except.ok () ↔
      ∀ p ∈ l, windowOk data p.offset p.original := by
  induction l with
  | nil => simp [validate_pre_patch]
  | cons p rest ih =>
    simp only [validate_pre_patch, List.forall_mem_cons]
    by_cases h1 : data.length < p.offset + p.original.length
    · rw [if_pos h1]
      constructor
      · intro h; cases h
      · rintro ⟨⟨hle, _⟩, _⟩; omega
    · rw [if_neg h1]
      by_cases h2 : readW data p.offset p.original.length = p.original
      · rw [if_neg (fun hc => hc h2), ih]
        have hwp : windowOk data p.offset p.original := ⟨Nat.le_of_not_lt h1, h2⟩
        exact ⟨fun h => ⟨hwp, h⟩, fun h => h.2⟩
      · rw [if_pos h2]
        constructor
        · intro h; cases h
        · rintro ⟨⟨_, heq⟩, _⟩; exact absurd heq h2

theorem validate_rev_ok_iff (data : List Nat) (l : List Patch) :
    validate_pre_revert data l = Except.ok () ↔
      ∀ p ∈ l, windowOk data p.offset p.patched := by
  induction l with
  | nil => simp [validate_pre_revert]
  | cons p rest ih =>
    simp only [validate_pre_revert, List.forall_mem_cons]
    by_cases h1 : data.length < p.offset + p.patched.length
    · rw [if_pos h1]
      constructor
      · intro h; cases h
      · rintro ⟨⟨hle, _⟩, _⟩; omega
    · rw [if_neg h1]
      by_cases h2 : readW data p.offset p.patched.length = p.patched
      · rw [if_neg (fun hc => hc h2), ih]
        have hwp : windowOk data p.offset p.patched := ⟨Nat.le_of_not_lt h1, h2⟩
        exact ⟨fun h => ⟨hwp, h⟩, fun h => h.2⟩
      · rw [if_pos h2]
        constructor
        · intro h; cases h
        · rintro ⟨⟨_, heq⟩, _⟩; exact absurd heq h2

theorem validate_eq_specFirstFailure (data : List Nat) (l : List Patch) :
    validate_pre_patch data l =
      (match specFirstFailure data (fun p => p.original) l with
       | none => Except.ok ()
       | some e => Except.error e) := by
  induction l with
  | nil => rfl
  | cons p rest ih =>
    simp only [validate_pre_patch, specFirstFailure]
    by_cases h1 : data.length < p.offset + p.original.length
    · rw [if_pos h1, if_pos h1]
    · rw [if_neg h1, if_neg h1]
      by_cases h2 : readW data p.offset p.original.length = p.original
      · rw [if_neg (fun hc => hc h2), if_neg (fun hc => hc h2), ih]
      · rw [if_pos h2, if_pos h2]

theorem validate_rev_eq_specFirstFailure (data : List Nat) (l : List Patch) :
    validate_pre_revert data l =
      (match specFirstFailure data (fun p => p.patched) l with
       | none => Except.ok ()
       | some e => Except.error e) := by
  induction l with
  | nil => rfl
  | cons p rest ih =>
    simp only [validate_pre_revert, specFirstFailure]
    by_cases h1 : data.length < p.offset + p.patched.length
    · rw [if_pos h1, if_pos h1]
    · rw [if_neg h1, if_neg h1]
      by_cases h2 : readW data p.offset p.patched.length = p.patched
      · rw [if_neg (fun hc => hc h2), if_neg (fun hc => hc h2), ih]
      · rw [if_pos h2, if_pos h2]

/-! ## Write-loop characterizations -/

theorem applyLoop_eq (l : List Patch) :
    ∀ data : List Nat, (∀ p ∈ l, p.offset + p.patched.length ≤ data.length) →
      applyLoop data l =
        (Except.ok (l.map applyLog), foldWrites (fun p => p.patched) data l) := by
  induction l with
  | nil => intro data _; rfl
  | cons p rest ih =>
    intro data hb
    have hp := hb p (List.mem_cons_self p rest)
    have hw : (writeW data p.offset p.patched).length = data.length :=
      writeW_length _ _ _ hp
    simp only [applyLoop]
    rw [if_neg (by omega),
      ih (writeW data p.offset p.patched)
        (fun q hq => by rw [hw]; exact hb q (List.mem_cons_of_mem _ hq))]
    rfl

theorem revertLoop_eq (l : List Patch) :
    ∀ data : List Nat, (∀ p ∈ l, p.offset + p.original.length ≤ data.length) →
      revertLoop data l =
        (Except.ok (l.map revertLog), foldWrites (fun p => p.original) data l) := by
  induction l with
  | nil => intro data _; rfl
  | cons p rest ih =>
    intro data hb
    have hp := hb p (List.mem_cons_self p rest)
    have hw : (writeW data p.offset p.original).length = data.length :=
      writeW_length _ _ _ hp
    simp only [revertLoop]
    rw [if_neg (by omega),
      ih (writeW data p.offset p.original)
        (fun q hq => by rw [hw]; exact hb q (List.mem_cons_of_mem _ hq))]
    rfl

/-- `apply_patches` on a buffer whose windows are all in the original
state, for a patch set whose patches replace as many bytes as they write:
it succeeds, with the write-fold as the resulting buffer. -/
theorem apply_patches_eq_of_windows (ps : PatchSet) (data : List Nat)
    (hlen : sameLengths ps.patches)
    (hwin : ∀ p ∈ ps.patches, windowOk data p.offset p.original) :
    apply_patches data ps =
      (Except.ok (ps.patches.map applyLog),
        foldWrites (fun p => p.patched) data ps.patches) := by
  have hb : ∀ p ∈ ps.patches, p.offset + p.patched.length ≤ data.length :=
    fun p hp => by
      have h1 := (hwin p hp).1
      have h2 := hlen p hp
      omega
  unfold apply_patches
  rw [(validate_ok_iff data ps.patches).mpr hwin]
  exact applyLoop_eq ps.patches data hb

/-- `revert_patches` on a buffer whose windows are all in the patched
state, for a patch set whose patches replace as many bytes as they write. -/
theorem revert_patches_eq_of_windows (ps : PatchSet) (data : List Nat)
    (hlen : sameLengths ps.patches)
    (hwin : ∀ p ∈ ps.patches, windowOk data p.offset p.patched) :
    revert_patches data ps =
      (Except.ok (ps.patches.map revertLog),
        foldWrites (fun p => p.original) data ps.patches) := by
  have hb : ∀ p ∈ ps.patches, p.offset + p.original.length ≤ data.length :=
    fun p hp => by
      have h1 := (hwin p hp).1
      have h2 := hlen p hp
      omega
  unfold revert_patches
  rw [(validate_rev_ok_iff data ps.patches).mpr hwin]
  exact revertLoop_eq ps.patches data hb

/-! ## Catalog facts -/

theorem catalog_facts : ∀ ps ∈ get_all_patch_sets,
    sameLengths ps.patches ∧
    (∀ p ∈ ps.patches, p.original ≠ p.patched ∧ p.original ≠ []) ∧
    disjointWindows (fun p => p.original) ps.patches := by decide

theorem catalog_shape : ∀ ps ∈ get_all_patch_sets,
    ∃ j c d, ps.patches = [j, c, d] ∧
      j.name = "Jump" ∧ c.name = "Code" ∧ d.name = "DTC" := by
  intro ps hps
  simp only [get_all_patch_sets, List.mem_cons, List.not_mem_nil, or_false] at hps
  rcases hps with rfl | rfl | rfl | rfl | rfl
  all_goals exact ⟨_, _, _, rfl, rfl, rfl, rfl⟩

/-- For equal-length patches, the disjointness of the original windows is
also the disjointness of the patched windows. -/
theorem disjointWindows_patched_of_original (l : List Patch) (hlen : sameLengths l)
    (h : disjointWindows (fun p => p.original) l) :
    disjointWindows (fun p => p.patched) l := by
  induction l with
  | nil => exact List.Pairwise.nil
  | cons p rest ih =>
    obtain ⟨hhead, htail⟩ := List.pairwise_cons.mp h
    refine List.pairwise_cons.mpr ⟨?_, ?_⟩
    · intro q hq
      have h1 := hlen p (List.mem_cons_self p rest)
      have h2 := hlen q (List.mem_cons_of_mem _ hq)
      have h3 := hhead q hq
      dsimp only at h3 ⊢
      rcases h3 with h3 | h3
      · exact Or.inl (by omega)
      · exact Or.inr (by omega)
    · exact ih (fun q hq => hlen q (List.mem_cons_of_mem _ hq)) htail

/-! ## Error-path lemmas -/

theorem apply_patches_of_validate_error (data : List Nat) (ps : PatchSet)
    (e : PatcherError)
    (h : validate_pre_patch data ps.patches = Except.error e) :
    apply_patches data ps = (Except.error e, data) := by
  unfold apply_patches
  rw [h]

theorem apply_fst_error (ps : PatchSet) (data : List Nat)
    (hlen : sameLengths ps.patches) (e : PatcherError)
    (h : (apply_patches data ps).1 = Except.error e) :
    (apply_patches data ps).2 = data ∧
      validate_pre_patch data ps.patches = Except.error e := by
  cases hv : validate_pre_patch data ps.patches with
  | error e' =>
    have happ : apply_patches data ps = (Except.error e', data) := by
      unfold apply_patches; rw [hv]
    have h1 : (Except.error e' : Except PatcherError (List String)) = Except.error e := by
      rw [← h, happ]
    injection h1 with he
    subst he
    rw [happ]
    exact ⟨rfl, rfl⟩
  | ok u =>
    cases u
    have hwin := (validate_ok_iff data ps.patches).mp hv
    have heq := apply_patches_eq_of_windows ps data hlen hwin
    rw [heq] at h
    simp at h

theorem revert_fst_error (ps : PatchSet) (data : List Nat)
    (hlen : sameLengths ps.patches) (e : PatcherError)
    (h : (revert_patches data ps).1 = Except.error e) :
    (revert_patches data ps).2 = data ∧
      validate_pre_revert data ps.patches = Except.error e := by
  cases hv : validate_pre_revert data ps.patches with
  | error e' =>
    have hrev : revert_patches data ps = (Except.error e', data) := by
      unfold revert_patches; rw [hv]
    have h1 : (Except.error e' : Except PatcherError (List String)) = Except.error e := by
      rw [← h, hrev]
    injection h1 with he
    subst he
    rw [hrev]
    exact ⟨rfl, rfl⟩
  | ok u =>
    cases u
    have hwin := (validate_rev_ok_iff data ps.patches).mp hv
    have heq := revert_patches_eq_of_windows ps data hlen hwin
    rw [heq] at h
    simp at h

/-! ## Claim theorems -/

/-- C1 (amended): for every buffer and every patch set in which each patch
replaces exactly as many bytes as it writes — which holds for every catalog
set — an erroring `apply_patches` or `revert_patches` call leaves the buffer
byte-for-byte unchanged. (The claim as stated, over arbitrary patch sets, is
refuted by `claim_C1_cex`: with a patch whose `patched` is longer than its
`original`, the defensive in-loop length check can fire after earlier
patches were already written.) -/
theorem claim_C1 (ps : PatchSet) (data : List Nat)
    (hlen : sameLengths ps.patches) :
    (∀ e, (apply_patches data ps).1 = Except.error e →
      (apply_patches data ps).2 = data) ∧
    (∀ e, (revert_patches data ps).1 = Except.error e →
      (revert_patches data ps).2 = data) :=
  ⟨fun e h => (apply_fst_error ps data hlen e h).1,
   fun e h => (revert_fst_error ps data hlen e h).1⟩

/-- C1 witness: the amended theorem applied to the "ca430037" catalog set
and the (too-short) buffer `[0, 0, 0]`. -/
theorem claim_C1_witness :
    sameLengths set_ca430037.patches ∧
    ((∀ e, (apply_patches [0, 0, 0] set_ca430037).1 = Except.error e →
        (apply_patches [0, 0, 0] set_ca430037).2 = [0, 0, 0]) ∧
     (∀ e, (revert_patches [0, 0, 0] set_ca430037).1 = Except.error e →
        (revert_patches [0, 0, 0] set_ca430037).2 = [0, 0, 0])) :=
  ⟨by decide, claim_C1 set_ca430037 [0, 0, 0] (by decide)⟩

/-- C1 counterexample: `psGrow`'s second patch writes two bytes where it
replaced zero; on the one-byte buffer `[0]` validation passes, the first
patch is written, and the second write's length check then fails — the call
returns an error with the buffer already mutated to `[5]`. -/
theorem claim_C1_cex :
    (apply_patches [0] psGrow).1 = Except.error (PatcherError.FileTooSmall "B" 0) ∧
    (apply_patches [0] psGrow).2 = [5] ∧ [5] ≠ ([0] : List Nat) :=
  ⟨rfl, rfl, by decide⟩

/-- C3: `validate_pre_patch` scans the modifications in set order and
returns the first failure — `FileTooSmall (name, offset)` when the buffer is
shorter than `offset + original.length`, `ValidationMismatch (offset,
original, observed)` when the window differs — and returns `Ok` exactly when
every window matches its `original` bytes; the validation pass of
`revert_patches` is the symmetric scan with `patched` as the reference. -/
theorem claim_C3 : ∀ (data : List Nat) (ps : PatchSet),
    (validate_pre_patch data ps.patches =
      (match specFirstFailure data (fun p => p.original) ps.patches with
       | none => Except.ok ()
       | some e => Except.error e)) ∧
    (validate_pre_patch data ps.patches = Except.ok () ↔
      ∀ p ∈ ps.patches, windowOk data p.offset p.original) ∧
    (validate_pre_revert data ps.patches =
      (match specFirstFailure data (fun p => p.patched) ps.patches with
       | none => Except.ok ()
       | some e => Except.error e)) ∧
    (validate_pre_revert data ps.patches = Except.ok () ↔
      ∀ p ∈ ps.patches, windowOk data p.offset p.patched) ∧
    (∀ e, validate_pre_revert data ps.patches = Except.error e →
      revert_patches data ps = (Except.error e, data)) :=
  fun data ps =>
    ⟨validate_eq_specFirstFailure data ps.patches,
     validate_ok_iff data ps.patches,
     validate_rev_eq_specFirstFailure data ps.patches,
     validate_rev_ok_iff data ps.patches,
     fun e h => by unfold revert_patches; rw [h]⟩

/-- C5: `get_patch_status` returns `Patched` exactly when the patched
window fits and matches, `Unpatched` exactly when the patched check failed
and the original window fits and matches, `Unknown` otherwise — the patched
check is evaluated first. -/
theorem claim_C5 : ∀ (data : List Nat) (p : Patch),
    (get_patch_status data p = PatchStatus.Patched ↔
      windowOk data p.offset p.patched) ∧
    (get_patch_status data p = PatchStatus.Unpatched ↔
      ¬ windowOk data p.offset p.patched ∧ windowOk data p.offset p.original) ∧
    (get_patch_status data p = PatchStatus.Unknown ↔
      ¬ windowOk data p.offset p.patched ∧ ¬ windowOk data p.offset p.original) := by
  intro data p
  simp only [get_patch_status]
  by_cases h1 : p.offset + p.patched.length ≤ data.length ∧
      readW data p.offset p.patched.length = p.patched
  · rw [if_pos h1]
    simp [windowOk, h1]
  · rw [if_neg h1]
    by_cases h2 : p.offset + p.original.length ≤ data.length ∧
        readW data p.offset p.original.length = p.original
    · rw [if_pos h2]
      simp [windowOk, h1, h2]
    · rw [if_neg h2]
      simp [windowOk, h1, h2]

/-! ## Version detection (claim C4) -/

theorem readW_append_left (A v : List Nat) :
    readW (A ++ v) A.length v.length = v := by
  unfold readW
  rw [List.drop_left, List.take_length]

theorem cleanedIdent_dataVerZZ : cleanedIdent dataVerZZ = "ca430037ZZ" := by
  have h1 : readW dataVerZZ VERSION_STRING_OFFSET VERSION_STRING_LENGTH = verBytesZZ := by
    unfold dataVerZZ
    have hA : VERSION_STRING_OFFSET = (List.replicate 0x70040 (0 : Nat)).length := by
      rw [List.length_replicate]
      rfl
    have hv : VERSION_STRING_LENGTH = verBytesZZ.length := rfl
    rw [hA, hv, readW_append_left]
  unfold cleanedIdent
  rw [h1]
  decide

theorem dataVerZZ_length : dataVerZZ.length = VERSION_STRING_OFFSET + VERSION_STRING_LENGTH := by
  unfold dataVerZZ
  rw [List.length_append, List.length_replicate]
  rfl

theorem dataVerZZ_ca : strStartsWith (cleanedIdent dataVerZZ) "ca" = true := by
  rw [cleanedIdent_dataVerZZ]
  decide

/-- C4: on a buffer long enough for the version region whose cleaned
identifier starts with "ca", `detect_version` returns `Ok ps` exactly when
`ps` is the first entry in the map's iteration order whose `version_string`
is a string-prefix of the cleaned identifier (prefix, not equality), and
returns `UnsupportedVersion` carrying the cleaned identifier exactly when no
entry's `version_string` is such a prefix. `mapOrder` is the iteration
sequence of `PATCH_SETS_MAP`, a permutation of the five catalog entries. -/
theorem claim_C4 (mapOrder : List PatchSet) (data : List Nat)
    (hperm : mapOrder.Perm get_all_patch_sets)
    (hlen : VERSION_STRING_OFFSET + VERSION_STRING_LENGTH ≤ data.length)
    (hca : strStartsWith (cleanedIdent data) "ca" = true) :
    (∀ ps, detect_version mapOrder data = Except.ok ps ↔
       ∃ l₁ l₂, mapOrder = l₁ ++ ps :: l₂ ∧
         strStartsWith (cleanedIdent data) ps.version_string = true ∧
         ∀ q ∈ l₁, strStartsWith (cleanedIdent data) q.version_string = false) ∧
    (detect_version mapOrder data =
        Except.error (VersionError.UnsupportedVersion (cleanedIdent data)) ↔
       ∀ q ∈ mapOrder, strStartsWith (cleanedIdent data) q.version_string = false) := by
  have _hperm := hperm
  have hdet : detect_version mapOrder data =
      (match mapOrder.find? (fun ps => strStartsWith (cleanedIdent data) ps.version_string) with
       | some ps => Except.ok ps
       | none => Except.error (VersionError.UnsupportedVersion (cleanedIdent data))) := by
    simp only [detect_version]
    rw [if_neg (by omega), if_neg (fun hc => hc hca)]
  rw [hdet]
  constructor
  · intro ps
    cases hfind : mapOrder.find? (fun q => strStartsWith (cleanedIdent data) q.version_string) with
    | some q =>
      constructor
      · intro h
        injection h with hqp
        subst hqp
        obtain ⟨hp, as, bs, heq, hall⟩ := List.find?_eq_some.mp hfind
        exact ⟨as, bs, heq, hp, fun a ha => by simpa using hall a ha⟩
      · rintro ⟨l₁, l₂, heq, hps, hall⟩
        have hsome : mapOrder.find?
            (fun q => strStartsWith (cleanedIdent data) q.version_string) = some ps :=
          List.find?_eq_some.mpr ⟨hps, l₁, l₂, heq, fun a ha => by simp [hall a ha]⟩
        rw [hfind] at hsome
        injection hsome with hqp
        rw [hqp]
    | none =>
      constructor
      · intro h
        exact Except.noConfusion h
      · rintro ⟨l₁, l₂, heq, hps, _⟩
        have hnone := List.find?_eq_none.mp hfind ps
          (by rw [heq]; exact List.mem_append_right _ (List.mem_cons_self _ _))
        exact absurd hps hnone
  · cases hfind : mapOrder.find? (fun q => strStartsWith (cleanedIdent data) q.version_string) with
    | some q =>
      constructor
      · intro h
        exact Except.noConfusion h
      · intro hall
        have hnone : mapOrder.find?
            (fun q => strStartsWith (cleanedIdent data) q.version_string) = none :=
          List.find?_eq_none.mpr (fun x hx => by simp [hall x hx])
        rw [hfind] at hnone
        exact Option.noConfusion hnone
    | none =>
      constructor
      · intro _
        intro q hq
        simpa using List.find?_eq_none.mp hfind q hq
      · intro _
        rfl

/-- C4 witness: the identity iteration order and a buffer whose version
region reads "ca430037ZZ" — trailing garbage after the catalog identifier,
so only the prefix (not equality) match can succeed. -/
theorem claim_C4_witness :
    (get_all_patch_sets.Perm get_all_patch_sets) ∧
    VERSION_STRING_OFFSET + VERSION_STRING_LENGTH ≤ dataVerZZ.length ∧
    strStartsWith (cleanedIdent dataVerZZ) "ca" = true ∧
    ((∀ ps, detect_version get_all_patch_sets dataVerZZ = Except.ok ps ↔
        ∃ l₁ l₂, get_all_patch_sets = l₁ ++ ps :: l₂ ∧
          strStartsWith (cleanedIdent dataVerZZ) ps.version_string = true ∧
          ∀ q ∈ l₁, strStartsWith (cleanedIdent dataVerZZ) q.version_string = false) ∧
     (detect_version get_all_patch_sets dataVerZZ =
         Except.error (VersionError.UnsupportedVersion (cleanedIdent dataVerZZ)) ↔
        ∀ q ∈ get_all_patch_sets,
          strStartsWith (cleanedIdent dataVerZZ) q.version_string = false)) :=
  ⟨List.Perm.refl _, Nat.le_of_eq dataVerZZ_length.symm, dataVerZZ_ca,
   claim_C4 get_all_patch_sets dataVerZZ (List.Perm.refl _)
     (Nat.le_of_eq dataVerZZ_length.symm) dataVerZZ_ca⟩

/-! ## Apply postcondition and status (claims C6, C2, C8) -/

theorem get_patch_status_patched (data : List Nat) (p : Patch)
    (h1 : p.offset + p.patched.length ≤ data.length)
    (h2 : readW data p.offset p.patched.length = p.patched) :
    get_patch_status data p = PatchStatus.Patched := by
  simp only [get_patch_status]
  rw [if_pos ⟨h1, h2⟩]

theorem set037_patches : set_ca430037.patches = [jump037, code037, dtc037] := rfl

theorem check_patch_status_all (ps : PatchSet) (hps : ps ∈ get_all_patch_sets)
    (data : List Nat)
    (hall : ∀ p ∈ ps.patches, get_patch_status data p = PatchStatus.Patched) :
    check_patch_status data ps =
      (PatchStatus.Patched, PatchStatus.Patched, PatchStatus.Patched) := by
  obtain ⟨j, c, d, hpat, hj, hc, hd⟩ := catalog_shape ps hps
  have hjm : j ∈ ps.patches := by rw [hpat]; exact List.mem_cons_self _ _
  have hcm : c ∈ ps.patches := by
    rw [hpat]; exact List.mem_cons_of_mem _ (List.mem_cons_self _ _)
  have hdm : d ∈ ps.patches := by
    rw [hpat]
    exact List.mem_cons_of_mem _ (List.mem_cons_of_mem _ (List.mem_cons_self _ _))
  unfold check_patch_status
  rw [hpat]
  simp [List.find?, hj, hc, hd, hall j hjm, hall c hcm, hall d hdm]

/-- On a buffer whose original windows all match, `apply_patches` on a
catalog-shaped set succeeds; the result is the patched write-fold, which
keeps the length, leaves bytes outside the patched windows untouched and
sets every patched window. -/
theorem apply_success_full (ps : PatchSet) (data : List Nat)
    (hsl : sameLengths ps.patches)
    (hdj : disjointWindows (fun p => p.original) ps.patches)
    (hwin : ∀ p ∈ ps.patches, windowOk data p.offset p.original) :
    apply_patches data ps =
      (Except.ok (ps.patches.map applyLog),
        foldWrites (fun p => p.patched) data ps.patches) ∧
    (foldWrites (fun p => p.patched) data ps.patches).length = data.length ∧
    (∀ i, (∀ p ∈ ps.patches, i < p.offset ∨ p.offset + p.patched.length ≤ i) →
      (foldWrites (fun p => p.patched) data ps.patches)[i]? = data[i]?) ∧
    (∀ p ∈ ps.patches,
      readW (foldWrites (fun p => p.patched) data ps.patches)
        p.offset p.patched.length = p.patched) := by
  have hb : ∀ p ∈ ps.patches, p.offset + p.patched.length ≤ data.length := by
    intro p hp
    have h1 := (hwin p hp).1
    have h2 := hsl p hp
    omega
  have hdp : disjointWindows (fun p => p.patched) ps.patches :=
    disjointWindows_patched_of_original ps.patches hsl hdj
  refine ⟨apply_patches_eq_of_windows ps data hsl hwin,
    foldWrites_length _ _ data hb, ?_, ?_⟩
  · intro i hout
    exact getElem?_foldWrites_outside _ ps.patches data hb i hout
  · intro p hp
    exact readW_foldWrites_self _ ps.patches data hb hdp p hp

/-- C6: for every catalog patch set and every buffer whose windows all hold
the `original` bytes, `apply_patches` succeeds, keeps the length, leaves
every byte outside the patched windows untouched, makes every window equal
the `patched` bytes, and `check_patch_status` afterwards reports `Patched`
in all three slots. -/
theorem claim_C6 (ps : PatchSet) (hps : ps ∈ get_all_patch_sets)
    (data : List Nat)
    (hwin : ∀ p ∈ ps.patches, windowOk data p.offset p.original) :
    ∃ logs final, apply_patches data ps = (Except.ok logs, final) ∧
      final.length = data.length ∧
      (∀ i, (∀ p ∈ ps.patches, i < p.offset ∨ p.offset + p.patched.length ≤ i) →
        final[i]? = data[i]?) ∧
      (∀ p ∈ ps.patches, readW final p.offset p.patched.length = p.patched) ∧
      check_patch_status final ps =
        (PatchStatus.Patched, PatchStatus.Patched, PatchStatus.Patched) := by
  obtain ⟨hsl, _, hdj⟩ := catalog_facts ps hps
  obtain ⟨happ, hlen, hout, hself⟩ := apply_success_full ps data hsl hdj hwin
  have hb : ∀ p ∈ ps.patches, p.offset + p.patched.length ≤ data.length := by
    intro p hp
    have h1 := (hwin p hp).1
    have h2 := hsl p hp
    omega
  refine ⟨ps.patches.map applyLog, foldWrites (fun p => p.patched) data ps.patches,
    happ, hlen, hout, hself, ?_⟩
  refine check_patch_status_all ps hps _ ?_
  intro p hp
  exact get_patch_status_patched _ p (by rw [hlen]; exact hb p hp) (hself p hp)

theorem dataOrig037_length : dataOrig037.length = bufLen037 := by
  unfold dataOrig037
  rw [foldWrites_length _ _ _ (by rw [List.length_replicate]; decide),
    List.length_replicate]

theorem dataOrig037_windows :
    ∀ p ∈ set_ca430037.patches, windowOk dataOrig037 p.offset p.original := by
  intro p hp
  have hb : ∀ q ∈ set_ca430037.patches,
      q.offset + q.original.length ≤ (List.replicate bufLen037 (0 : Nat)).length := by
    rw [List.length_replicate]; decide
  refine ⟨?_, ?_⟩
  · rw [dataOrig037_length]
    revert hp
    revert p
    decide
  · exact readW_foldWrites_self (fun p => p.original) set_ca430037.patches
      (List.replicate bufLen037 0) hb (by decide) p hp

/-- C6 witness: the "ca430037" set applied to a zero buffer holding all
three original windows. -/
theorem claim_C6_witness :
    (set_ca430037 ∈ get_all_patch_sets) ∧
    (∀ p ∈ set_ca430037.patches, windowOk dataOrig037 p.offset p.original) ∧
    (∃ logs final, apply_patches dataOrig037 set_ca430037 = (Except.ok logs, final) ∧
      final.length = dataOrig037.length ∧
      (∀ i, (∀ p ∈ set_ca430037.patches,
          i < p.offset ∨ p.offset + p.patched.length ≤ i) →
        final[i]? = dataOrig037[i]?) ∧
      (∀ p ∈ set_ca430037.patches, readW final p.offset p.patched.length = p.patched) ∧
      check_patch_status final set_ca430037 =
        (PatchStatus.Patched, PatchStatus.Patched, PatchStatus.Patched)) :=
  ⟨by decide, dataOrig037_windows,
   claim_C6 set_ca430037 (by decide) dataOrig037 dataOrig037_windows⟩

/-- C2: for every catalog patch set, a successful `apply_patches` followed
by `revert_patches` on the resulting buffer succeeds and restores the
buffer byte-for-byte. -/
theorem claim_C2 (ps : PatchSet) (hps : ps ∈ get_all_patch_sets)
    (data : List Nat) (logs : List String) (final : List Nat)
    (happ : apply_patches data ps = (Except.ok logs, final)) :
    revert_patches final ps = (Except.ok (ps.patches.map revertLog), data) := by
  obtain ⟨hsl, _, hdj⟩ := catalog_facts ps hps
  have hwin : ∀ p ∈ ps.patches, windowOk data p.offset p.original := by
    cases hv : validate_pre_patch data ps.patches with
    | error e =>
      have herr : apply_patches data ps = (Except.error e, data) := by
        unfold apply_patches; rw [hv]
      rw [herr] at happ
      simp at happ
    | ok u =>
      cases u
      exact (validate_ok_iff data ps.patches).mp hv
  have heq := apply_patches_eq_of_windows ps data hsl hwin
  rw [heq] at happ
  have hfinal : final = foldWrites (fun p => p.patched) data ps.patches := by
    have h2 := congrArg Prod.snd happ
    simpa using h2.symm
  subst hfinal
  have hb : ∀ p ∈ ps.patches, p.offset + p.patched.length ≤ data.length := by
    intro p hp
    have h1 := (hwin p hp).1
    have h2 := hsl p hp
    omega
  have hbo : ∀ p ∈ ps.patches, p.offset + p.original.length ≤ data.length :=
    fun p hp => (hwin p hp).1
  have hdp : disjointWindows (fun p => p.patched) ps.patches :=
    disjointWindows_patched_of_original ps.patches hsl hdj
  have hflen : (foldWrites (fun p => p.patched) data ps.patches).length = data.length :=
    foldWrites_length _ _ data hb
  have hwin2 : ∀ p ∈ ps.patches,
      windowOk (foldWrites (fun p => p.patched) data ps.patches) p.offset p.patched := by
    intro p hp
    exact ⟨by rw [hflen]; exact hb p hp,
      readW_foldWrites_self _ ps.patches data hb hdp p hp⟩
  have hrev := revert_patches_eq_of_windows ps
    (foldWrites (fun p => p.patched) data ps.patches) hsl hwin2
  rw [hrev]
  have hb2 : ∀ p ∈ ps.patches, p.offset + p.original.length ≤
      (foldWrites (fun p => p.patched) data ps.patches).length := by
    intro p hp
    rw [hflen]
    exact hbo p hp
  have hback : foldWrites (fun p => p.original)
      (foldWrites (fun p => p.patched) data ps.patches) ps.patches = data := by
    apply List.ext_getElem?
    intro i
    by_cases hin : ∃ p, p ∈ ps.patches ∧ p.offset ≤ i ∧ i < p.offset + p.original.length
    · obtain ⟨p, hp, hi1, hi2⟩ := hin
      have hw1 : readW (foldWrites (fun p => p.original)
          (foldWrites (fun p => p.patched) data ps.patches) ps.patches)
          p.offset p.original.length = p.original :=
        readW_foldWrites_self _ ps.patches _ hb2 hdj p hp
      have e1 := readW_pt _ p.offset p.original.length (i - p.offset) _ hw1 (by omega)
      have e2 := readW_pt data p.offset p.original.length (i - p.offset) _
        (hwin p hp).2 (by omega)
      rw [show p.offset + (i - p.offset) = i from by omega] at e1 e2
      rw [e1, e2]
    · have hout : ∀ p ∈ ps.patches, i < p.offset ∨ p.offset + p.original.length ≤ i := by
        intro p hp
        by_cases h1 : i < p.offset
        · exact Or.inl h1
        · right
          by_contra h2
          exact hin ⟨p, hp, by omega, by omega⟩
      have hout2 : ∀ p ∈ ps.patches, i < p.offset ∨ p.offset + p.patched.length ≤ i := by
        intro p hp
        have h2 := hsl p hp
        rcases hout p hp with h | h
        · exact Or.inl h
        · exact Or.inr (by omega)
      rw [getElem?_foldWrites_outside _ ps.patches _ hb2 i hout,
        getElem?_foldWrites_outside _ ps.patches data hb i hout2]
  rw [hback]

/-- C2 witness: apply then revert of the "ca430037" set on the concrete
all-original buffer restores it exactly. -/
theorem claim_C2_witness :
    (set_ca430037 ∈ get_all_patch_sets) ∧
    (apply_patches dataOrig037 set_ca430037 =
      (Except.ok (set_ca430037.patches.map applyLog),
        foldWrites (fun p => p.patched) dataOrig037 set_ca430037.patches)) ∧
    revert_patches (foldWrites (fun p => p.patched) dataOrig037 set_ca430037.patches)
        set_ca430037 =
      (Except.ok (set_ca430037.patches.map revertLog), dataOrig037) :=
  have happ := apply_patches_eq_of_windows set_ca430037 dataOrig037 (by decide)
    dataOrig037_windows
  ⟨by decide, happ,
   claim_C2 set_ca430037 (by decide) dataOrig037 _ _ happ⟩

theorem dataPat037_length : dataPat037.length = bufLen037 := by
  unfold dataPat037
  rw [foldWrites_length _ _ _ (by rw [List.length_replicate]; decide),
    List.length_replicate]

theorem dataPat037_windows :
    ∀ p ∈ set_ca430037.patches, windowOk dataPat037 p.offset p.patched := by
  intro p hp
  have hb : ∀ q ∈ set_ca430037.patches,
      q.offset + q.patched.length ≤ (List.replicate bufLen037 (0 : Nat)).length := by
    rw [List.length_replicate]; decide
  refine ⟨?_, ?_⟩
  · rw [dataPat037_length]
    revert hp
    revert p
    decide
  · exact readW_foldWrites_self (fun p => p.patched) set_ca430037.patches
      (List.replicate bufLen037 0) hb (by decide) p hp

/-- C8: applying a catalog set to a buffer whose windows are all already in
the patched state fails with `ValidationMismatch` and leaves the buffer
unchanged (no silent success, no second write). -/
theorem claim_C8 (ps : PatchSet) (hps : ps ∈ get_all_patch_sets)
    (data : List Nat)
    (hwin : ∀ p ∈ ps.patches, windowOk data p.offset p.patched) :
    ∃ off expected found, apply_patches data ps =
      (Except.error (PatcherError.ValidationMismatch off expected found), data) := by
  obtain ⟨hsl, hne, _⟩ := catalog_facts ps hps
  obtain ⟨j, c, d, hpat, _, _, _⟩ := catalog_shape ps hps
  have hjm : j ∈ ps.patches := by rw [hpat]; exact List.mem_cons_self _ _
  have hwj := hwin j hjm
  have hslj := hsl j hjm
  have hread : readW data j.offset j.original.length = j.patched := by
    rw [hslj]
    exact hwj.2
  have hv : validate_pre_patch data ps.patches =
      Except.error (PatcherError.ValidationMismatch j.offset j.original j.patched) := by
    rw [hpat]
    simp only [validate_pre_patch]
    have h1 := hwj.1
    rw [if_neg (by omega), hread, if_pos (Ne.symm (hne j hjm).1)]
  refine ⟨j.offset, j.original, j.patched, ?_⟩
  unfold apply_patches
  rw [hv]

/-- C8 witness: the "ca430037" set on the concrete all-patched buffer. -/
theorem claim_C8_witness :
    (set_ca430037 ∈ get_all_patch_sets) ∧
    (∀ p ∈ set_ca430037.patches, windowOk dataPat037 p.offset p.patched) ∧
    (∃ off expected found, apply_patches dataPat037 set_ca430037 =
      (Except.error (PatcherError.ValidationMismatch off expected found), dataPat037)) :=
  ⟨by decide, dataPat037_windows,
   claim_C8 set_ca430037 (by decide) dataPat037 dataPat037_windows⟩

/-! ## Truncation diagnosis (claim C7) -/

theorem validate_firstTooSmall (data : List Nat) (q : Patch) :
    ∀ l : List Patch,
    (∀ r ∈ l, r.offset + r.original.length ≤ data.length →
      windowOk data r.offset r.original) →
    l.find? (fun r => decide (data.length < r.offset + r.original.length)) = some q →
    validate_pre_patch data l =
      Except.error (PatcherError.FileTooSmall q.name q.offset) := by
  intro l
  induction l with
  | nil =>
    intro _ hfind
    exact Option.noConfusion hfind
  | cons p rest ih =>
    intro hw hfind
    by_cases h1 : data.length < p.offset + p.original.length
    · have hfp : (p :: rest).find?
          (fun r => decide (data.length < r.offset + r.original.length)) = some p :=
        List.find?_cons_of_pos _ (decide_eq_true h1)
      rw [hfp] at hfind
      injection hfind with hq
      subst hq
      simp only [validate_pre_patch]
      rw [if_pos h1]
    · have hfp : (p :: rest).find?
          (fun r => decide (data.length < r.offset + r.original.length)) =
          rest.find? (fun r => decide (data.length < r.offset + r.original.length)) :=
        List.find?_cons_of_neg _ (by simpa using h1)
      rw [hfp] at hfind
      have hfit : p.offset + p.original.length ≤ data.length := Nat.le_of_not_lt h1
      have hwp := hw p (List.mem_cons_self _ _) hfit
      simp only [validate_pre_patch]
      rw [if_neg h1, if_neg (fun hc => hc hwp.2)]
      exact ih (fun r hr hfit2 => hw r (List.mem_cons_of_mem _ hr) hfit2) hfind

/-- C7 (amended): on a buffer truncated to `offset + len(original) - 1`
bytes for some modification, whose still-fitting windows are in the original
state, apply fails with `FileTooSmall` naming the FIRST modification in set
order whose window extends past the end of the buffer — which is the
truncated modification itself only when no earlier modification in set
order has a larger window end (true for "Jump" and "DTC" of every catalog
set, false for "Code": see `claim_C7_cex`). -/
theorem claim_C7 (ps : PatchSet) (hps : ps ∈ get_all_patch_sets)
    (p : Patch) (hp : p ∈ ps.patches) (data : List Nat)
    (hlen : data.length = p.offset + p.original.length - 1)
    (hwin : ∀ q ∈ ps.patches, q.offset + q.original.length ≤ data.length →
      windowOk data q.offset q.original) :
    ∃ q ∈ ps.patches,
      ps.patches.find?
        (fun r => decide (data.length < r.offset + r.original.length)) = some q ∧
      apply_patches data ps =
        (Except.error (PatcherError.FileTooSmall q.name q.offset), data) := by
  obtain ⟨_, hne, _⟩ := catalog_facts ps hps
  have hpne : p.original ≠ [] := (hne p hp).2
  have hplen : 0 < p.original.length := List.length_pos.mpr hpne
  have hpred : decide (data.length < p.offset + p.original.length) = true :=
    decide_eq_true (by omega)
  have hsome : (ps.patches.find?
      (fun r => decide (data.length < r.offset + r.original.length))).isSome = true :=
    List.find?_isSome.mpr ⟨p, hp, hpred⟩
  obtain ⟨q, hq⟩ := Option.isSome_iff_exists.mp hsome
  have hqm : q ∈ ps.patches := List.mem_of_find?_eq_some hq
  have hv := validate_firstTooSmall data q ps.patches hwin hq
  refine ⟨q, hqm, hq, ?_⟩
  unfold apply_patches
  rw [hv]

theorem dataTruncJump037_length :
    dataTruncJump037.length = jump037.offset + jump037.original.length - 1 := by
  unfold dataTruncJump037
  rw [writeW_length _ _ _ (by rw [List.length_replicate]; decide),
    List.length_replicate]
  rfl

theorem dataTruncJump037_windows : ∀ q ∈ set_ca430037.patches,
    q.offset + q.original.length ≤ dataTruncJump037.length →
    windowOk dataTruncJump037 q.offset q.original := by
  intro q hq hfit
  rw [dataTruncJump037_length] at hfit
  rw [set037_patches] at hq
  simp only [List.mem_cons, List.not_mem_nil, or_false] at hq
  rcases hq with rfl | rfl | rfl
  · exact absurd hfit (by decide)
  · refine ⟨?_, ?_⟩
    · rw [dataTruncJump037_length]
      decide
    · exact readW_writeW_self _ _ _ (by rw [List.length_replicate]; decide)
  · exact absurd hfit (by decide)

/-- C7 witness: the "Jump" modification of the "ca430037" set — no earlier
modification in set order, so the amended theorem names "Jump" itself. -/
theorem claim_C7_witness :
    (set_ca430037 ∈ get_all_patch_sets) ∧ (jump037 ∈ set_ca430037.patches) ∧
    dataTruncJump037.length = jump037.offset + jump037.original.length - 1 ∧
    (∀ q ∈ set_ca430037.patches,
      q.offset + q.original.length ≤ dataTruncJump037.length →
      windowOk dataTruncJump037 q.offset q.original) ∧
    (∃ q ∈ set_ca430037.patches,
      set_ca430037.patches.find?
        (fun r => decide (dataTruncJump037.length < r.offset + r.original.length)) = some q ∧
      apply_patches dataTruncJump037 set_ca430037 =
        (Except.error (PatcherError.FileTooSmall q.name q.offset), dataTruncJump037)) :=
  ⟨by decide, by decide, dataTruncJump037_length, dataTruncJump037_windows,
   claim_C7 set_ca430037 (by decide) jump037 (by decide) dataTruncJump037
     dataTruncJump037_length dataTruncJump037_windows⟩

/-- C7 counterexample: truncating for the "Code" modification of the
"ca430037" set (buffer length `0x5350C + 8 - 1 = 0x53513`, the fitting part
of the Code window in the original state) makes apply fail with
`FileTooSmall` naming "Jump" — the first modification scanned — not the
truncated modification "Code". -/
theorem claim_C7_cex :
    code037 ∈ set_ca430037.patches ∧
    dataTruncCode037.length = code037.offset + code037.original.length - 1 ∧
    apply_patches dataTruncCode037 set_ca430037 =
      (Except.error (PatcherError.FileTooSmall "Jump" 0x54E8C), dataTruncCode037) ∧
    "Jump" ≠ "Code" := by
  have hlen : dataTruncCode037.length = 0x53513 := by
    unfold dataTruncCode037
    rw [writeW_length _ _ _ (by rw [List.length_replicate]; decide),
      List.length_replicate]
  have hv : validate_pre_patch dataTruncCode037 set_ca430037.patches =
      Except.error (PatcherError.FileTooSmall "Jump" 0x54E8C) := by
    rw [set037_patches]
    simp only [validate_pre_patch]
    rw [if_pos (by rw [hlen]; decide)]
    rfl
  refine ⟨by decide, by rw [hlen]; rfl, ?_, by decide⟩
  exact apply_patches_of_validate_error dataTruncCode037 set_ca430037 _ hv

/-- C9: in every catalog patch set, every patch has `original` and
`patched` of equal length with `original ≠ patched`, and the byte windows
of distinct patches are pairwise disjoint. -/
theorem claim_C9 (ps : PatchSet) (hps : ps ∈ get_all_patch_sets) :
    (∀ p ∈ ps.patches, p.original.length = p.patched.length ∧ p.original ≠ p.patched) ∧
    disjointWindows (fun p => p.original) ps.patches ∧
    disjointWindows (fun p => p.patched) ps.patches := by
  have h : ∀ ps ∈ get_all_patch_sets,
      (∀ p ∈ ps.patches,
        p.original.length = p.patched.length ∧ p.original ≠ p.patched) ∧
      disjointWindows (fun p => p.original) ps.patches ∧
      disjointWindows (fun p => p.patched) ps.patches := by decide
  exact h ps hps

/-- C9 witness: the catalog invariant at the "ca430037" entry. -/
theorem claim_C9_witness :
    set_ca430037 ∈ get_all_patch_sets ∧
    ((∀ p ∈ set_ca430037.patches,
        p.original.length = p.patched.length ∧ p.original ≠ p.patched) ∧
     disjointWindows (fun p => p.original) set_ca430037.patches ∧
     disjointWindows (fun p => p.patched) set_ca430037.patches) :=
  ⟨by decide, claim_C9 set_ca430037 (by decide)⟩

/-! ## Panic freedom (claim C10) -/

theorem sliceChecked_of_le (data : List Nat) (a n : Nat) (h : a + n ≤ data.length) :
    sliceChecked data a (a + n) = some (readW data a n) := by
  unfold sliceChecked
  rw [if_pos ⟨Nat.le_add_right a n, h⟩, Nat.add_sub_cancel_left]

theorem writeChecked_of_le (data : List Nat) (a : Nat) (src : List Nat)
    (h : a + src.length ≤ data.length) :
    writeChecked data a (a + src.length) src = some (writeW data a src) := by
  unfold writeChecked
  rw [if_pos ⟨Nat.le_add_right _ _, h, (Nat.add_sub_cancel_left a src.length).symm⟩]

theorem validateP_eq (data : List Nat) : ∀ l : List Patch,
    validate_pre_patchP data l = some (validate_pre_patch data l) := by
  intro l
  induction l with
  | nil => rfl
  | cons p rest ih =>
    simp only [validate_pre_patchP, validate_pre_patch]
    by_cases h1 : data.length < p.offset + p.original.length
    · rw [if_pos h1, if_pos h1]
    · rw [if_neg h1, if_neg h1,
        sliceChecked_of_le data p.offset p.original.length (Nat.le_of_not_lt h1)]
      dsimp only
      by_cases h2 : readW data p.offset p.original.length = p.original
      · rw [if_neg (fun hc => hc h2), if_neg (fun hc => hc h2), ih]
      · rw [if_pos h2, if_pos h2]

theorem validateRevP_eq (data : List Nat) : ∀ l : List Patch,
    validate_pre_revertP data l = some (validate_pre_revert data l) := by
  intro l
  induction l with
  | nil => rfl
  | cons p rest ih =>
    simp only [validate_pre_revertP, validate_pre_revert]
    by_cases h1 : data.length < p.offset + p.patched.length
    · rw [if_pos h1, if_pos h1]
    · rw [if_neg h1, if_neg h1,
        sliceChecked_of_le data p.offset p.patched.length (Nat.le_of_not_lt h1)]
      dsimp only
      by_cases h2 : readW data p.offset p.patched.length = p.patched
      · rw [if_neg (fun hc => hc h2), if_neg (fun hc => hc h2), ih]
      · rw [if_pos h2, if_pos h2]

theorem applyLoopP_eq : ∀ (l : List Patch) (data : List Nat),
    applyLoopP data l = some (applyLoop data l) := by
  intro l
  induction l with
  | nil => intro data; rfl
  | cons p rest ih =>
    intro data
    simp only [applyLoopP, applyLoop]
    by_cases h1 : data.length < p.offset + p.patched.length
    · rw [if_pos h1, if_pos h1]
    · rw [if_neg h1, if_neg h1,
        writeChecked_of_le data p.offset p.patched (Nat.le_of_not_lt h1)]
      dsimp only
      rw [ih (writeW data p.offset p.patched)]
      cases applyLoop (writeW data p.offset p.patched) rest with
      | mk fst snd => cases fst <;> rfl

theorem revertLoopP_eq : ∀ (l : List Patch) (data : List Nat),
    revertLoopP data l = some (revertLoop data l) := by
  intro l
  induction l with
  | nil => intro data; rfl
  | cons p rest ih =>
    intro data
    simp only [revertLoopP, revertLoop]
    by_cases h1 : data.length < p.offset + p.original.length
    · rw [if_pos h1, if_pos h1]
    · rw [if_neg h1, if_neg h1,
        writeChecked_of_le data p.offset p.original (Nat.le_of_not_lt h1)]
      dsimp only
      rw [ih (writeW data p.offset p.original)]
      cases revertLoop (writeW data p.offset p.original) rest with
      | mk fst snd => cases fst <;> rfl

theorem apply_patchesP_eq (data : List Nat) (ps : PatchSet) :
    apply_patchesP data ps = some (apply_patches data ps) := by
  unfold apply_patchesP apply_patches
  rw [validateP_eq data ps.patches]
  cases validate_pre_patch data ps.patches with
  | error e => rfl
  | ok u =>
    dsimp only
    exact applyLoopP_eq ps.patches data

theorem revert_patchesP_eq (data : List Nat) (ps : PatchSet) :
    revert_patchesP data ps = some (revert_patches data ps) := by
  unfold revert_patchesP revert_patches
  rw [validateRevP_eq data ps.patches]
  cases validate_pre_revert data ps.patches with
  | error e => rfl
  | ok u =>
    dsimp only
    exact revertLoopP_eq ps.patches data

theorem get_patch_statusP_eq (data : List Nat) (p : Patch) :
    get_patch_statusP data p = some (get_patch_status data p) := by
  simp only [get_patch_statusP, get_patch_status]
  by_cases h1 : p.offset + p.patched.length ≤ data.length
  · rw [if_pos h1, sliceChecked_of_le data p.offset p.patched.length h1]
    dsimp only
    by_cases h2 : readW data p.offset p.patched.length = p.patched
    · rw [if_pos h2, if_pos (show p.offset + p.patched.length ≤ data.length ∧
        readW data p.offset p.patched.length = p.patched from ⟨h1, h2⟩)]
    · rw [if_neg h2, if_neg (show ¬(p.offset + p.patched.length ≤ data.length ∧
        readW data p.offset p.patched.length = p.patched) from fun hc => h2 hc.2)]
      by_cases h3 : p.offset + p.original.length ≤ data.length
      · rw [if_pos h3, sliceChecked_of_le data p.offset p.original.length h3]
        dsimp only
        by_cases h4 : readW data p.offset p.original.length = p.original
        · rw [if_pos h4, if_pos (show p.offset + p.original.length ≤ data.length ∧
            readW data p.offset p.original.length = p.original from ⟨h3, h4⟩)]
        · rw [if_neg h4, if_neg (show ¬(p.offset + p.original.length ≤ data.length ∧
            readW data p.offset p.original.length = p.original) from fun hc => h4 hc.2)]
      · rw [if_neg h3, if_neg (show ¬(p.offset + p.original.length ≤ data.length ∧
          readW data p.offset p.original.length = p.original) from fun hc => h3 hc.1)]
  · rw [if_neg h1, if_neg (show ¬(p.offset + p.patched.length ≤ data.length ∧
      readW data p.offset p.patched.length = p.patched) from fun hc => h1 hc.1)]
    by_cases h3 : p.offset + p.original.length ≤ data.length
    · rw [if_pos h3, sliceChecked_of_le data p.offset p.original.length h3]
      dsimp only
      by_cases h4 : readW data p.offset p.original.length = p.original
      · rw [if_pos h4, if_pos (show p.offset + p.original.length ≤ data.length ∧
          readW data p.offset p.original.length = p.original from ⟨h3, h4⟩)]
      · rw [if_neg h4, if_neg (show ¬(p.offset + p.original.length ≤ data.length ∧
          readW data p.offset p.original.length = p.original) from fun hc => h4 hc.2)]
    · rw [if_neg h3, if_neg (show ¬(p.offset + p.original.length ≤ data.length ∧
        readW data p.offset p.original.length = p.original) from fun hc => h3 hc.1)]

theorem check_patch_statusP_eq (data : List Nat) (ps : PatchSet) :
    check_patch_statusP data ps = some (check_patch_status data ps) := by
  simp only [check_patch_statusP, check_patch_status]
  cases ps.patches.find? (fun p => p.name = "Jump") <;>
    cases ps.patches.find? (fun p => p.name = "Code") <;>
      cases ps.patches.find? (fun p => p.name = "DTC") <;>
        simp [get_patch_statusP_eq]

theorem detect_versionP_eq (mapOrder : List PatchSet) (data : List Nat) :
    detect_versionP mapOrder data = some (detect_version mapOrder data) := by
  simp only [detect_versionP, detect_version, cleanedIdent]
  by_cases h1 : data.length < VERSION_STRING_OFFSET + VERSION_STRING_LENGTH
  · rw [if_pos h1, if_pos h1]
  · rw [if_neg h1, if_neg h1,
      sliceChecked_of_le data VERSION_STRING_OFFSET VERSION_STRING_LENGTH
        (Nat.le_of_not_lt h1)]
    dsimp only
    by_cases h2 : strStartsWith
        (clean_version_bytes
          (readW data VERSION_STRING_OFFSET VERSION_STRING_LENGTH)) "ca" = true
    · rw [if_neg (fun hc => hc h2), if_neg (fun hc => hc h2)]
      cases mapOrder.find? (fun ps => strStartsWith
          (clean_version_bytes
            (readW data VERSION_STRING_OFFSET VERSION_STRING_LENGTH))
          ps.version_string) with
      | none => rfl
      | some q => rfl
    · rw [if_pos h2, if_pos h2]

/-- C10: every slice access in `validate_pre_patch`, the two validation
and write passes of `apply_patches` and `revert_patches`,
`get_patch_status`, `check_patch_status` and `detect_version` is guarded by
a preceding length check: the panic-aware variants (each slice access
replaced by a checked access returning `none` on a Rust panic condition)
return `some` of the plain result on every input. -/
theorem claim_C10 : ∀ (data : List Nat) (l : List Patch) (p : Patch)
    (ps : PatchSet) (mapOrder : List PatchSet),
    validate_pre_patchP data l = some (validate_pre_patch data l) ∧
    validate_pre_revertP data l = some (validate_pre_revert data l) ∧
    apply_patchesP data ps = some (apply_patches data ps) ∧
    revert_patchesP data ps = some (revert_patches data ps) ∧
    get_patch_statusP data p = some (get_patch_status data p) ∧
    check_patch_statusP data ps = some (check_patch_status data ps) ∧
    detect_versionP mapOrder data = some (detect_version mapOrder data) :=
  fun data l p ps mapOrder =>
    ⟨validateP_eq data l, validateRevP_eq data l, apply_patchesP_eq data ps,
     revert_patchesP_eq data ps, get_patch_statusP_eq data p,
     check_patch_statusP_eq data ps, detect_versionP_eq mapOrder data⟩

end MS43
